import Mathlib

/-!
Verification of the conversation / knowledge-document state machine of the
single-page chat application (`src/app/page.tsx`).

The component's React state and its event handlers are shallowly embedded as
pure Lean functions on an explicit application-state record.  JavaScript
millisecond clock readings (`Date.now()`) are passed in as explicit `Nat`
arguments; asynchronous network outcomes are passed in as an
`Except Unit AgentResponse` value.  Strings are modelled by Lean `String`.
-/

namespace ChatApp

/-- Role enum of a `Message` (the `'user' | 'assistant'` union of `page.tsx`). -/
inductive Role where
  | user
  | assistant
deriving DecidableEq, Repr

structure Message where
  id : String
  content : String
  role : Role
  timestamp : String
deriving DecidableEq, Repr

/-- Conversation record of `page.tsx`. -/
structure Conversation where
  id : String
  title : String
  messages : List Message
  createdAt : String
deriving DecidableEq, Repr

/-- Knowledge-document record of `page.tsx`; `size` is a byte count. -/
structure KnowledgeDocument where
  id : String
  name : String
  content : String
  uploadedAt : String
  size : Nat
deriving DecidableEq, Repr

/-! ### Decimal rendering of `Nat`, modelling JavaScript `Number.prototype.toString()`
on the nonnegative integers produced by `Date.now()`.  A fuel-indexed helper keeps
the definition structurally recursive (hence kernel-evaluable). -/
def digitChar (n : Nat) : Char := Char.ofNat (48 + n)

def natDigitsAux : Nat → Nat → List Char
  | 0, _ => []
  | fuel + 1, n =>
    if n = 0 then [] else natDigitsAux fuel (n / 10) ++ [digitChar (n % 10)]

/-- Big-endian decimal digits of `n` (empty for `0`). -/
def natDigits (n : Nat) : List Char := natDigitsAux n n

/-- Decimal `n.toString()` of a JavaScript nonnegative number `n`. -/
def natToString (n : Nat) : String :=
  if n = 0 then "0" else ⟨natDigits n⟩

/-- Numeric value of a big-endian digit list. -/
def valOfDigits (ds : List Char) : Nat :=
  ds.foldl (fun a c => a * 10 + (c.toNat - 48)) 0

/-! ### String escaping for the textual (JSON-style) serialization.
`"` and `\` are escaped with a backslash; all other characters are literal. -/
def escChar (c : Char) : List Char :=
  if c = '"' ∨ c = '\\' then ['\\', c] else [c]

def escapeChars (cs : List Char) : List Char := cs.flatMap escChar

/-- A quoted string literal: `"` + escaped body + `"`. -/
def printStringLit (s : String) : List Char :=
  '"' :: escapeChars s.data ++ ['"']

/-- Consume an escaped string body up to (and including) the closing quote. -/
def parseStrAux : List Char → Option (List Char × List Char)
  | [] => none
  | c :: rest =>
    if c = '"' then some ([], rest)
    else if c = '\\' then
      match rest with
      | [] => none
      | d :: rest2 =>
        if d = '"' ∨ d = '\\' then
          (parseStrAux rest2).map (fun p => (d :: p.1, p.2))
        else none
    else (parseStrAux rest).map (fun p => (c :: p.1, p.2))
termination_by cs => cs.length
decreasing_by
  · simp; omega
  · simp

def parseStringLit (input : List Char) : Option (String × List Char) :=
  match input with
  | [] => none
  | c :: rest =>
    if c = '"' then (parseStrAux rest).map (fun p => (⟨p.1⟩, p.2)) else none

/-- JavaScript `String.prototype.trim()`: strip leading and trailing whitespace
(modelled over the character list of the string). -/
def jsTrim (s : String) : String :=
  ⟨((s.data.dropWhile Char.isWhitespace).reverse.dropWhile Char.isWhitespace).reverse⟩

/-! ### Application state (the component's `useState` fields that carry data). -/
structure AppState where
  conversations : List Conversation
  currentConversationId : Option String
  messages : List Message
  input : String
  loading : Bool
  knowledgeDocuments : List KnowledgeDocument
  uploadName : String
  uploadContent : String
  showUploadDialog : Bool
deriving DecidableEq, Repr

/-- Initial component state (all `useState` initialisers). -/
def initState : AppState :=
  { conversations := []
    currentConversationId := none
    messages := []
    input := ""
    loading := false
    knowledgeDocuments := []
    uploadName := ""
    uploadContent := ""
    showUploadDialog := false }

/-- Two-digit zero padding, `padStart(2, '0')`, on a decimal rendering. -/
def pad2 (n : Nat) : String :=
  let s := natToString n
  if s.length < 2 then "0" ++ s else s

/-- Function `formatTimestamp` of `page.tsx`: `hh:mm`, zero padded, from a millisecond
clock reading (time-zone offset elided). -/
def formatTimestamp (nowMs : Nat) : String :=
  pad2 (nowMs / 3600000 % 24) ++ ":" ++ pad2 (nowMs / 60000 % 60)

/-- The conversation literal built by `createNewConversation`; calendar rendering of
the two timestamp strings is modelled by the decimal millisecond reading. -/
def newConversation (now : Nat) : Conversation :=
  { id := natToString now
    title := "New Conversation"
    messages :=
      [{ id := "1"
         content := "Hi! How can I help you today?"
         role := .assistant
         timestamp := natToString now }]
    createdAt := natToString now }

/-- Handler `createNewConversation` of `page.tsx`. -/
def createNewConversation (s : AppState) (now : Nat) : AppState :=
  { s with
    conversations := newConversation now :: s.conversations
    currentConversationId := some (natToString now)
    messages := (newConversation now).messages
    input := "" }

/-- Handler `switchConversation` of `page.tsx`. -/
def switchConversation (s : AppState) (convId : String) : AppState :=
  match s.conversations.find? (fun c => c.id = convId) with
  | some conversation =>
    { s with currentConversationId := some convId, messages := conversation.messages }
  | none => s

/-- Unit list of `formatFileSize` (`const sizes = ['Bytes', 'KB', 'MB']`). -/
def fileSizeUnits : List String := ["Bytes", "KB", "MB"]

/-- Index `Math.floor(Math.log(bytes) / Math.log(1024))`, modelled by the exact
base-1024 integer logarithm. -/
def fileSizeIndex (bytes : Nat) : Nat := Nat.log 1024 bytes

/-- Rounding `Math.round(x * 100) / 100` over exact rationals. -/
def roundTo2 (q : ℚ) : ℚ := (round (q * 100) : ℚ) / 100

/-- Function `formatFileSize` of `page.tsx`, as the pair (rounded numeric part, unit part)
whose JavaScript rendering is `toString(number) ++ " " ++ unit`.  An index past the
end of `sizes` is the JavaScript out-of-range lookup `undefined`, which the string
concatenation renders as `"undefined"`.  The `bytes = 0` early return `'0 Bytes'`
is the pair `(0, "Bytes")`. -/
def formatFileSize (bytes : Nat) : ℚ × String :=
  if bytes = 0 then (0, "Bytes")
  else
    let i := fileSizeIndex bytes
    (roundTo2 ((bytes : ℚ) / (1024 : ℚ) ^ i), fileSizeUnits.getD i "undefined")

/-- Handler `handleAddDocument` of `page.tsx` (the submit handler of the upload dialog);
`new Blob([content]).size` is the UTF-8 byte length of the content. -/
def handleAddDocument (s : AppState) (now : Nat) : AppState :=
  if jsTrim s.uploadName = "" ∨ jsTrim s.uploadContent = "" then s
  else
    let newDoc : KnowledgeDocument :=
      { id := natToString now
        name := s.uploadName
        content := s.uploadContent
        uploadedAt := natToString now
        size := s.uploadContent.utf8ByteSize }
    { s with
      knowledgeDocuments := newDoc :: s.knowledgeDocuments
      uploadName := ""
      uploadContent := ""
      showUploadDialog := false }

/-- Document-collection effect of one `handleAddDocument` call, with the pending
upload fields holding `name` / `content`. -/
def addDocument (docs : List KnowledgeDocument) (name content : String) (now : Nat) :
    List KnowledgeDocument :=
  (handleAddDocument
    { initState with knowledgeDocuments := docs, uploadName := name, uploadContent := content }
    now).knowledgeDocuments

/-- Handler `deleteDocument` of `page.tsx`. -/
def deleteDocument (s : AppState) (docId : String) : AppState :=
  { s with knowledgeDocuments := s.knowledgeDocuments.filter (fun doc => doc.id ≠ docId) }

/-! ### The agent call: response shapes and extraction (`handleSendMessage`). -/
/-- Possible shapes of the `response` field of the agent's JSON body: a raw string,
or an object with optional string fields `result`, `response`, `text`. -/
inductive RespVal where
  | str (s : String)
  | obj (result response text : Option String)
deriving DecidableEq, Repr

/-- Parsed agent JSON body: `{ success, response?, raw_response? }`. -/
structure AgentResponse where
  success : Bool
  response : Option RespVal
  raw_response : Option String
deriving DecidableEq, Repr

/-- JavaScript truthiness of the `response` field (an absent field and the empty
string are falsy; any object is truthy). -/
def respTruthy : Option RespVal → Bool
  | none => false
  | some (.str s) => s != ""
  | some (.obj _ _ _) => true

/-- JavaScript truthiness filter on an optional string (`undefined` and `""` falsy). -/
def strTruthy : Option String → Option String
  | none => none
  | some s => if s = "" then none else some s

/-- JavaScript `a || b` on optional strings. -/
def jsOr (a b : Option String) : Option String :=
  match strTruthy a with
  | some s => some s
  | none => b

/-- Field probe `data.response?.result` (`undefined` on a string or absent response). -/
def respResult : Option RespVal → Option String
  | some (.obj r _ _) => r
  | _ => none

/-- Field probe `data.response?.response`. -/
def respResponseField : Option RespVal → Option String
  | some (.obj _ r _) => r
  | _ => none

/-- Field probe `data.response?.text`. -/
def respText : Option RespVal → Option String
  | some (.obj _ _ t) => t
  | _ => none

/-- Probe `typeof data.response === 'string' ? data.response : null`. -/
def respAsString : Option RespVal → Option String
  | some (.str s) => some s
  | _ => none

/-- Assistant-content extraction of `handleSendMessage` (lines 236–250): the chained
`||` fallbacks inside the `data.success && data.response` branch, the
`else if (data.raw_response)` branch, and the initial default. -/
def extractAssistantContent (data : AgentResponse) : String :=
  if data.success && respTruthy data.response then
    (jsOr (respResult data.response)
      (jsOr (respResponseField data.response)
        (jsOr (respText data.response)
          (jsOr (respAsString data.response)
            (jsOr data.raw_response none))))).getD "No response generated"
  else
    match strTruthy data.raw_response with
    | some s => s
    | none => "I encountered an error processing your request. Please try again."

/-- Content of the assistant message appended by the `catch` branch. -/
def errorReplyText : String := "Sorry, I encountered an error. Please try again."

/-- Outbound request body of the `fetch('/api/agent')` call. -/
structure AgentRequest where
  message : String
  agent_id : String
  user_id : String
  session_id : String
deriving DecidableEq, Repr

/-- Join `Array.prototype.join('\n---\n')` over per-document `Document: name, newline, content` entries. -/
def joinDocs : List KnowledgeDocument → String
  | [] => ""
  | [d] => "Document: " ++ d.name ++ "\n" ++ d.content
  | d :: rest =>
    "Document: " ++ d.name ++ "\n" ++ d.content ++ "\n---\n" ++ joinDocs rest

/-- Suffix `knowledgeContext` of `handleSendMessage` (empty unless documents exist). -/
def knowledgeContextOf (docs : List KnowledgeDocument) : String :=
  if docs.length > 0 then "\n\nRelevant Knowledge Base:\n" ++ joinDocs docs else ""

/-- Request body assembled by `handleSendMessage` (lines 222–230). -/
def assembleRequest (input : String) (docs : List KnowledgeDocument) (cid : String) :
    AgentRequest :=
  { message := input ++ knowledgeContextOf docs
    agent_id := "693bfaa59188cfbc911c685e"
    user_id := "user-chat-" ++ cid
    session_id := "session-" ++ cid }

/-- The request `handleSendMessage` issues from state `s` (`none` when the guard
`!input.trim() || loading || !currentConversationId` returns early). -/
def requestOf (s : AppState) : Option AgentRequest :=
  match s.currentConversationId with
  | none => none
  | some cid =>
    if jsTrim s.input = "" ∨ s.loading then none
    else some (assembleRequest s.input s.knowledgeDocuments cid)

/-- Title rewrite of `handleSendMessage` (lines 198–205): `findIndex` on the
conversation id, rewrite the title to the input's first 50 characters when the
found conversation still has exactly its single seeded message.  `findIdx`
returning the length plays the role of `findIndex` returning `-1`. -/
def updateTitleIfFirst (convs : List Conversation) (cid : String) (input : String) :
    List Conversation :=
  let conversationIndex := convs.findIdx (fun c => c.id = cid)
  if h : conversationIndex < convs.length then
    if (convs.get ⟨conversationIndex, h⟩).messages.length = 1 then
      convs.set conversationIndex
        { convs.get ⟨conversationIndex, h⟩ with title := input.take 50 }
    else convs
  else convs

/-- Handler `handleSendMessage` of `page.tsx`.  Here `now` is the `Date.now()` reading at the
user message (the assistant message's id uses `now + 1` as in the code; its
slightly later wall-clock timestamp is modelled by the same reading).  `outcome`
is the result of `fetch` + `response.json()`: `.ok data` for a parsed JSON body,
`.error ()` when the call throws (network failure or malformed body). -/
def handleSendMessage (s : AppState) (now : Nat) (outcome : Except Unit AgentResponse) :
    AppState :=
  match s.currentConversationId with
  | none => s
  | some cid =>
    if jsTrim s.input = "" ∨ s.loading then s
    else
      let userMessage : Message :=
        { id := natToString now
          content := s.input
          role := .user
          timestamp := formatTimestamp now }
      let updatedMessages := s.messages ++ [userMessage]
      let convs1 := updateTitleIfFirst s.conversations cid s.input
      let replyContent :=
        match outcome with
        | .ok data => extractAssistantContent data
        | .error _ => errorReplyText
      let assistantMessage : Message :=
        { id := natToString (now + 1)
          content := replyContent
          role := .assistant
          timestamp := formatTimestamp now }
      let finalMessages := updatedMessages ++ [assistantMessage]
      { s with
        messages := finalMessages
        input := ""
        loading := false
        conversations :=
          convs1.map (fun conv =>
            if conv.id = cid then { conv with messages := finalMessages } else conv) }

/-! ### Persistent Store serialization.

Modelled from the spec: the store holds each collection "serialized as text";
the serialization itself is performed by the platform functions
`JSON.stringify` / `JSON.parse`, which are not part of this repository's
sources.  The printers below emit the JSON text `JSON.stringify` produces for
the records of §3 (fields in object-literal insertion order, strings quoted
with `"` and `\` escaped, numbers in decimal); the parsers read back exactly
that canonical form. -/
def parseLit : List Char → List Char → Option (List Char)
  | [], input => some input
  | _ :: _, [] => none
  | c :: cs, d :: input => if c = d then parseLit cs input else none

/-- Serialized form of the `role` enum values. -/
def printRole : Role → String
  | .user => "user"
  | .assistant => "assistant"

def parseRole (s : String) : Option Role :=
  if s = "user" then some .user
  else if s = "assistant" then some .assistant
  else none

/-- Comma-joined rendering of array elements (`JSON.stringify` array body). -/
def joinPrinted (f : α → List Char) : List α → List Char
  | [] => []
  | [a] => f a
  | a :: rest => f a ++ ',' :: joinPrinted f rest

/-- A serialized JSON array. -/
def printArray (f : α → List Char) (l : List α) : List Char :=
  '[' :: joinPrinted f l ++ [']']

def parseArrayAux (p : List Char → Option (α × List Char)) :
    Nat → List Char → Option (List α × List Char)
  | 0, _ => none
  | fuel + 1, input => do
    let (a, r1) ← p input
    match r1 with
    | [] => none
    | c :: r2 =>
      if c = ']' then some ([a], r2)
      else if c = ',' then do
        let (as, r3) ← parseArrayAux p fuel r2
        some (a :: as, r3)
      else none

def parseArray (p : List Char → Option (α × List Char)) (input : List Char) :
    Option (List α × List Char) :=
  match input with
  | [] => none
  | c :: rest =>
    if c = '[' then
      match rest with
      | [] => none
      | d :: _ => if d = ']' then some ([], rest.tail) else parseArrayAux p rest.length rest
    else none

/-! Object printers: field order is the object-literal insertion order used in
`page.tsx`, which `JSON.stringify` preserves. -/
def printMessage (m : Message) : List Char :=
  '\x7b' :: ("\"id\":".data ++ printStringLit m.id
    ++ ",\"content\":".data ++ printStringLit m.content
    ++ ",\"role\":".data ++ printStringLit (printRole m.role)
    ++ ",\"timestamp\":".data ++ printStringLit m.timestamp ++ ['\x7d'])

def parseMessage (input : List Char) : Option (Message × List Char) :=
  match input with
  | [] => none
  | c :: r0 =>
    if c = '\x7b' then do
      let r1 ← parseLit "\"id\":".data r0
      let (id, r2) ← parseStringLit r1
      let r3 ← parseLit ",\"content\":".data r2
      let (content, r4) ← parseStringLit r3
      let r5 ← parseLit ",\"role\":".data r4
      let (roleStr, r6) ← parseStringLit r5
      let role ← parseRole roleStr
      let r7 ← parseLit ",\"timestamp\":".data r6
      let (timestamp, r8) ← parseStringLit r7
      let r9 ← parseLit ['\x7d'] r8
      some ({ id := id, content := content, role := role, timestamp := timestamp }, r9)
    else none

def printMessages (l : List Message) : List Char := printArray printMessage l

def parseMessages (input : List Char) : Option (List Message × List Char) :=
  parseArray parseMessage input

def printConversation (c : Conversation) : List Char :=
  '\x7b' :: ("\"id\":".data ++ printStringLit c.id
    ++ ",\"title\":".data ++ printStringLit c.title
    ++ ",\"messages\":".data ++ printMessages c.messages
    ++ ",\"createdAt\":".data ++ printStringLit c.createdAt ++ ['\x7d'])

def parseConversation (input : List Char) : Option (Conversation × List Char) :=
  match input with
  | [] => none
  | c :: r0 =>
    if c = '\x7b' then do
      let r1 ← parseLit "\"id\":".data r0
      let (id, r2) ← parseStringLit r1
      let r3 ← parseLit ",\"title\":".data r2
      let (title, r4) ← parseStringLit r3
      let r5 ← parseLit ",\"messages\":".data r4
      let (messages, r6) ← parseMessages r5
      let r7 ← parseLit ",\"createdAt\":".data r6
      let (createdAt, r8) ← parseStringLit r7
      let r9 ← parseLit ['\x7d'] r8
      some ({ id := id, title := title, messages := messages, createdAt := createdAt }, r9)
    else none

def printDocument (d : KnowledgeDocument) : List Char :=
  '\x7b' :: ("\"id\":".data ++ printStringLit d.id
    ++ ",\"name\":".data ++ printStringLit d.name
    ++ ",\"content\":".data ++ printStringLit d.content
    ++ ",\"uploadedAt\":".data ++ printStringLit d.uploadedAt
    ++ ",\"size\":".data ++ (natToString d.size).data ++ ['\x7d'])

/-- A digit character test phrased over code points. -/
def isDigitChar (c : Char) : Bool := 48 ≤ c.toNat && c.toNat ≤ 57

def parseNat (input : List Char) : Option (Nat × List Char) :=
  let ds := input.takeWhile isDigitChar
  if ds = [] then none else some (valOfDigits ds, input.dropWhile isDigitChar)

def parseDocument (input : List Char) : Option (KnowledgeDocument × List Char) :=
  match input with
  | [] => none
  | c :: r0 =>
    if c = '\x7b' then do
      let r1 ← parseLit "\"id\":".data r0
      let (id, r2) ← parseStringLit r1
      let r3 ← parseLit ",\"name\":".data r2
      let (name, r4) ← parseStringLit r3
      let r5 ← parseLit ",\"content\":".data r4
      let (content, r6) ← parseStringLit r5
      let r7 ← parseLit ",\"uploadedAt\":".data r6
      let (uploadedAt, r8) ← parseStringLit r7
      let r9 ← parseLit ",\"size\":".data r8
      let (size, r10) ← parseNat r9
      let r11 ← parseLit ['\x7d'] r10
      some ({ id := id, name := name, content := content, uploadedAt := uploadedAt,
              size := size }, r11)
    else none

/-- The text written to the `'conversations'` key. -/
def serializeConversations (l : List Conversation) : String :=
  ⟨printArray printConversation l⟩

/-- The text written to the `'knowledgeDocuments'` key. -/
def serializeDocuments (l : List KnowledgeDocument) : String :=
  ⟨printArray printDocument l⟩

/-- Reading the `'conversations'` key back (`JSON.parse` on the canonical text). -/
def deserializeConversations (s : String) : Option (List Conversation) :=
  match parseArray parseConversation s.data with
  | some (l, []) => some l
  | _ => none

/-- Reading the `'knowledgeDocuments'` key back. -/
def deserializeDocuments (s : String) : Option (List KnowledgeDocument) :=
  match parseArray parseDocument s.data with
  | some (l, []) => some l
  | _ => none

/-! ### Persistent Store and the save effects. -/
/-- The Persistent Store: the two `localStorage` keys, absent on first run. -/
structure Store where
  conversations : Option String
  knowledgeDocuments : Option String
deriving DecidableEq, Repr

def emptyStore : Store := { conversations := none, knowledgeDocuments := none }

/-- The two save `useEffect`s (lines 77–89): after a state change each writes the
serialization of its collection — but only when the collection is non-empty
(`if (collection.length > 0)`). -/
def saveEffects (s : AppState) (store : Store) : Store :=
  { conversations :=
      if s.conversations.length > 0 then some (serializeConversations s.conversations)
      else store.conversations
    knowledgeDocuments :=
      if s.knowledgeDocuments.length > 0 then some (serializeDocuments s.knowledgeDocuments)
      else store.knowledgeDocuments }

/-! ### User-triggered operations and reachable states. -/
/-- One user-triggered event, with the `Date.now()` reading at which it runs. -/
inductive Op where
  | createConv (t : Nat)
  | addDoc (t : Nat) (name content : String)
  | deleteDoc (id : String)
  | switchConv (id : String)
  | sendTurn (t : Nat) (outcome : Except Unit AgentResponse)

/-- Dispatch one event to its handler.  `addDoc` stages the pending upload
fields (the user filling the dialog) and submits. -/
def step (s : AppState) : Op → AppState
  | .createConv t => createNewConversation s t
  | .addDoc t name content =>
    handleAddDocument { s with uploadName := name, uploadContent := content } t
  | .deleteDoc id => deleteDocument s id
  | .switchConv id => switchConversation s id
  | .sendTurn t outcome => handleSendMessage s t outcome

/-- State reached from a fresh session by a sequence of events. -/
def run (ops : List Op) : AppState := ops.foldl step initState

/-- Clock readings at which conversations are created. -/
def convCreateTimes (ops : List Op) : List Nat :=
  ops.filterMap fun op => match op with | .createConv t => some t | _ => none

/-- Clock readings at which document uploads are submitted. -/
def docAddTimes (ops : List Op) : List Nat :=
  ops.filterMap fun op => match op with | .addDoc t _ _ => some t | _ => none

/-! ### Spec-side definitions used for refinement statements. -/
/-- First value of the list that is non-empty (and present), else the default —
the spec's "ordered fallback, first non-empty wins" policy (§4.4). -/
def firstNonEmpty : List (Option String) → String → String
  | [], dflt => dflt
  | c :: rest, dflt =>
    match strTruthy c with
    | some s => s
    | none => firstNonEmpty rest dflt

/-- The spec's response-extraction chain: structured result field → structured
response field → text field → raw string response body → top-level raw-response
field → literal fallback. -/
def specExtractedContent (data : AgentResponse) : String :=
  firstNonEmpty
    [respResult data.response, respResponseField data.response, respText data.response,
      respAsString data.response, data.raw_response]
    "No response generated"

/-- Valid-upload test of the spec for C5 (name and content non-empty after trim). -/
def validUpload (name content : String) : Bool :=
  !(jsTrim name == "") && !(jsTrim content == "")

/-- Fold a sequence of `addDocument` calls (name, content, clock reading). -/
def runAddCalls (docs : List KnowledgeDocument) :
    List (String × String × Nat) → List KnowledgeDocument
  | [] => docs
  | (name, content, t) :: rest => runAddCalls (addDocument docs name content t) rest

/-- Placeholder conversation for out-of-range `getD` lookups in statements. -/
def emptyConversation : Conversation :=
  { id := "", title := "", messages := [], createdAt := "" }

/-- Concrete document used by closed witness/counterexample statements. -/
def docA : KnowledgeDocument :=
  { id := "10", name := "notes.txt", content := "hello world", uploadedAt := "20", size := 11 }

/-- Second concrete document. -/
def docB : KnowledgeDocument :=
  { id := "11", name := "b.txt", content := "beta", uploadedAt := "21", size := 4 }

/-- Concrete state with one active seeded conversation and pending input. -/
def sampleState : AppState :=
  { initState with
    conversations := [newConversation 5]
    currentConversationId := some (natToString 5)
    messages := (newConversation 5).messages
    input := "hello there" }

/-- Variant of `sampleState` with two stored knowledge documents. -/
def sampleStateDocs : AppState :=
  { sampleState with knowledgeDocuments := [docA, docB] }

/-! ### Theorems. -/

theorem valOfDigits_append (ds es : List Char) :
    valOfDigits (ds ++ es) = es.foldl (fun a c => a * 10 + (c.toNat - 48)) (valOfDigits ds) := by
  simp [valOfDigits, List.foldl_append]

theorem digitChar_toNat {d : Nat} (h : d < 10) : (digitChar d).toNat = 48 + d := by
  simp only [digitChar, Char.ofNat]
  rw [dif_pos]
  · rfl
  · show 48 + d < 55296 ∨ _
    left; omega

theorem valOfDigits_natDigitsAux (fuel n : Nat) (h : n ≤ fuel) :
    valOfDigits (natDigitsAux fuel n) = n := by
  induction fuel generalizing n with
  | zero =>
    interval_cases n
    simp [natDigitsAux, valOfDigits]
  | succ fuel ih =>
    by_cases hn : n = 0
    · simp [natDigitsAux, hn, valOfDigits]
    · rw [natDigitsAux, if_neg hn, valOfDigits_append]
      have h10 : n % 10 < 10 := Nat.mod_lt _ (by norm_num)
      have hdiv : n / 10 ≤ fuel := by
        have := Nat.div_lt_self (Nat.pos_of_ne_zero hn) (by norm_num : 1 < 10)
        omega
      simp [List.foldl, ih _ hdiv, digitChar_toNat h10]
      omega

theorem valOfDigits_natDigits (n : Nat) : valOfDigits (natDigits n) = n :=
  valOfDigits_natDigitsAux n n (Nat.le_refl n)

theorem natDigits_ne_zeroChar {n : Nat} (hn : n ≠ 0) : natDigits n ≠ ['0'] := by
  intro h
  have := valOfDigits_natDigits n
  rw [h] at this
  simp [valOfDigits, List.foldl] at this
  omega

/-- Decimal rendering is injective: distinct clock readings give distinct id strings. -/
theorem natToString_injective : Function.Injective natToString := by
  intro a b hab
  by_cases ha : a = 0 <;> by_cases hb : b = 0
  · omega
  · exfalso
    rw [natToString, if_pos ha, natToString, if_neg hb] at hab
    have : ("0" : String).data = (⟨natDigits b⟩ : String).data := by rw [hab]
    simp only at this
    exact natDigits_ne_zeroChar hb this.symm
  · exfalso
    rw [natToString, if_neg ha, natToString, if_pos hb] at hab
    have : (⟨natDigits a⟩ : String).data = ("0" : String).data := by rw [hab]
    simp only at this
    exact natDigits_ne_zeroChar ha this
  · rw [natToString, if_neg ha, natToString, if_neg hb] at hab
    have hdata : natDigits a = natDigits b := congrArg String.data hab
    have := valOfDigits_natDigits a
    rw [hdata, valOfDigits_natDigits] at this
    exact this.symm

theorem parseStrAux_cons (c : Char) (rest : List Char) :
    parseStrAux (c :: rest) =
      if c = '"' then some ([], rest)
      else if c = '\\' then
        match rest with
        | [] => none
        | d :: rest2 =>
          if d = '"' ∨ d = '\\' then
            (parseStrAux rest2).map (fun p => (d :: p.1, p.2))
          else none
      else (parseStrAux rest).map (fun p => (c :: p.1, p.2)) := by
  rw [parseStrAux.eq_def]

theorem parseStrAux_escape (cs : List Char) (r : List Char) :
    parseStrAux (escapeChars cs ++ '"' :: r) = some (cs, r) := by
  induction cs with
  | nil =>
    simp [escapeChars, parseStrAux_cons]
  | cons c rest ih =>
    by_cases hc : c = '"' ∨ c = '\\'
    · have h1 : escapeChars (c :: rest) = '\\' :: c :: escapeChars rest := by
        simp [escapeChars, escChar, hc]
      rw [h1]
      have hne : ('\\' : Char) ≠ '"' := by decide
      rw [List.cons_append, List.cons_append, parseStrAux_cons]
      simp [hne, hc, ih]
    · have h1 : escapeChars (c :: rest) = c :: escapeChars rest := by
        simp [escapeChars, escChar, hc]
      rw [h1]
      push_neg at hc
      rw [List.cons_append, parseStrAux_cons]
      simp [hc.1, hc.2, ih]

theorem parseStringLit_print (s : String) (r : List Char) :
    parseStringLit (printStringLit s ++ r) = some (s, r) := by
  simp only [printStringLit, List.cons_append, List.append_assoc, List.cons_append,
    parseStringLit, if_pos rfl]
  rw [List.nil_append, parseStrAux_escape]
  rfl

theorem parseLit_append (lit r : List Char) : parseLit lit (lit ++ r) = some r := by
  induction lit with
  | nil => rfl
  | cons c cs ih => simp [parseLit, ih]

theorem parseRole_print (role : Role) : parseRole (printRole role) = some role := by
  cases role <;> simp [printRole, parseRole]

theorem parseArrayAux_print {α : Type} (p : List Char → Option (α × List Char))
    (f : α → List Char) (hp : ∀ a r, p (f a ++ r) = some (a, r)) :
    ∀ (l : List α) (r : List Char) (fuel : Nat), l ≠ [] → l.length ≤ fuel →
      parseArrayAux p fuel (joinPrinted f l ++ ']' :: r) = some (l, r) := by
  intro l
  induction l with
  | nil => intro r fuel h; exact absurd rfl h
  | cons a t ih =>
    intro r fuel _ hlen
    cases fuel with
    | zero => simp at hlen
    | succ fuel =>
      cases t with
      | nil =>
        simp [joinPrinted, parseArrayAux, hp]
      | cons b t' =>
        have hjoin : joinPrinted f (a :: b :: t') = f a ++ ',' :: joinPrinted f (b :: t') := rfl
        rw [hjoin, List.append_assoc, List.cons_append]
        have hrec := ih r fuel (by simp) (by simp at hlen ⊢; omega)
        simp [parseArrayAux, hp, hrec]

theorem joinPrinted_length {α : Type} (f : α → List Char)
    (hf : ∀ a, 1 ≤ (f a).length) :
    ∀ l : List α, l.length ≤ (joinPrinted f l).length := by
  intro l
  induction l with
  | nil => simp [joinPrinted]
  | cons a t ih =>
    cases t with
    | nil => simpa [joinPrinted] using hf a
    | cons b t' =>
      have : joinPrinted f (a :: b :: t') = f a ++ ',' :: joinPrinted f (b :: t') := rfl
      rw [this]
      have := hf a
      simp at ih ⊢
      omega

theorem joinPrinted_head {α : Type} (f : α → List Char)
    (hhead : ∀ a, ∃ K, f a = '\x7b' :: K) (a : α) (t : List α) :
    ∃ K, joinPrinted f (a :: t) = '\x7b' :: K := by
  obtain ⟨K, hK⟩ := hhead a
  cases t with
  | nil => exact ⟨K, hK⟩
  | cons b t' =>
    have : joinPrinted f (a :: b :: t') = f a ++ ',' :: joinPrinted f (b :: t') := rfl
    rw [this, hK]
    exact ⟨K ++ ',' :: joinPrinted f (b :: t'), rfl⟩

theorem parseArray_print {α : Type} (p : List Char → Option (α × List Char))
    (f : α → List Char) (hp : ∀ a r, p (f a ++ r) = some (a, r))
    (hhead : ∀ a, ∃ K, f a = '\x7b' :: K) (l : List α) (r : List Char) :
    parseArray p (printArray f l ++ r) = some (l, r) := by
  cases l with
  | nil => simp [printArray, joinPrinted, parseArray]
  | cons a t =>
    obtain ⟨K, hK⟩ := joinPrinted_head f hhead a t
    have hf1 : ∀ b, 1 ≤ (f b).length := by
      intro b
      obtain ⟨Kb, hKb⟩ := hhead b
      simp [hKb]
    have hlen : (a :: t).length ≤ (joinPrinted f (a :: t) ++ ']' :: r).length := by
      have := joinPrinted_length f hf1 (a :: t)
      simp at this ⊢
      omega
    have hne : ('\x7b' : Char) ≠ ']' := by decide
    have hbody : parseArrayAux p (joinPrinted f (a :: t) ++ ']' :: r).length
        (joinPrinted f (a :: t) ++ ']' :: r) = some (a :: t, r) :=
      parseArrayAux_print p f hp (a :: t) r _ (by simp) hlen
    have hinput : printArray f (a :: t) ++ r = '[' :: '\x7b' :: (K ++ ']' :: r) := by
      simp [printArray, hK]
    rw [hK] at hbody
    simp only [List.cons_append, List.length_cons] at hbody
    rw [hinput]
    simp only [parseArray, List.length_cons, List.tail_cons, if_pos rfl, if_neg hne]
    exact hbody

theorem parseMessage_print (m : Message) (r : List Char) :
    parseMessage (printMessage m ++ r) = some (m, r) := by
  simp [printMessage, parseMessage, parseLit, parseStringLit_print, parseRole_print,
    Option.bind]

theorem printMessage_head (m : Message) : ∃ K, printMessage m = '\x7b' :: K :=
  ⟨_, rfl⟩

theorem parseMessages_print (l : List Message) (r : List Char) :
    parseMessages (printMessages l ++ r) = some (l, r) :=
  parseArray_print parseMessage printMessage parseMessage_print printMessage_head l r

theorem parseConversation_print (c : Conversation) (r : List Char) :
    parseConversation (printConversation c ++ r) = some (c, r) := by
  simp [printConversation, parseConversation, parseLit, parseStringLit_print,
    parseMessages_print, Option.bind]

theorem natDigitsAux_all_digit (fuel n : Nat) :
    ∀ c ∈ natDigitsAux fuel n, isDigitChar c = true := by
  induction fuel generalizing n with
  | zero => simp [natDigitsAux]
  | succ fuel ih =>
    by_cases hn : n = 0
    · simp [natDigitsAux, hn]
    · rw [natDigitsAux, if_neg hn]
      intro c hc
      rcases List.mem_append.mp hc with h | h
      · exact ih _ c h
      · have h10 : n % 10 < 10 := Nat.mod_lt _ (by norm_num)
        have := digitChar_toNat h10
        simp at h
        subst h
        simp [isDigitChar, this]
        omega

theorem natToString_all_digit (n : Nat) :
    ∀ c ∈ (natToString n).data, isDigitChar c = true := by
  by_cases hn : n = 0
  · subst hn
    intro c hc
    simp [natToString] at hc
    subst hc
    decide
  · rw [natToString, if_neg hn]
    exact natDigitsAux_all_digit n n

theorem natToString_data_ne_nil (n : Nat) : (natToString n).data ≠ [] := by
  by_cases hn : n = 0
  · subst hn; decide
  · rw [natToString, if_neg hn]
    show natDigits n ≠ []
    intro h
    have := valOfDigits_natDigits n
    rw [h] at this
    simp [valOfDigits] at this
    omega

theorem takeWhile_all_append {p : Char → Bool} {ds r : List Char}
    (h : ∀ c ∈ ds, p c = true) (hr : ∀ c, r.head? = some c → p c = false) :
    (ds ++ r).takeWhile p = ds ∧ (ds ++ r).dropWhile p = r := by
  induction ds with
  | nil =>
    cases r with
    | nil => simp
    | cons c r' =>
      have := hr c rfl
      simp [List.takeWhile, List.dropWhile, this]
  | cons d ds' ih =>
    have hd := h d (by simp)
    have hrest := ih (fun c hc => h c (by simp [hc]))
    simp [List.takeWhile, List.dropWhile, hd, hrest.1, hrest.2]

theorem parseNat_print (n : Nat) (r : List Char)
    (hr : ∀ c, r.head? = some c → isDigitChar c = false) :
    parseNat ((natToString n).data ++ r) = some (n, r) := by
  obtain ⟨htake, hdrop⟩ := takeWhile_all_append (natToString_all_digit n) hr
  rw [parseNat]
  simp only [htake, hdrop, if_neg (natToString_data_ne_nil n)]
  congr 1
  ext
  · by_cases hn : n = 0
    · subst hn
      simp [natToString, valOfDigits]
    · rw [natToString, if_neg hn]
      exact valOfDigits_natDigits n
  · rfl

theorem parseDocument_print (d : KnowledgeDocument) (r : List Char) :
    parseDocument (printDocument d ++ r) = some (d, r) := by
  have hbrace : ∀ c : Char, ('\x7d' :: r).head? = some c → isDigitChar c = false := by
    intro c hc
    simp at hc
    subst hc
    decide
  simp [printDocument, parseDocument, parseLit, parseStringLit_print,
    parseNat_print d.size ('\x7d' :: r) hbrace, Option.bind]

theorem printConversation_head (c : Conversation) : ∃ K, printConversation c = '\x7b' :: K :=
  ⟨_, rfl⟩

theorem printDocument_head (d : KnowledgeDocument) : ∃ K, printDocument d = '\x7b' :: K :=
  ⟨_, rfl⟩

theorem deserialize_serialize_conversations (l : List Conversation) :
    deserializeConversations (serializeConversations l) = some l := by
  rw [deserializeConversations]
  have : (serializeConversations l).data = printArray printConversation l ++ [] := by
    simp [serializeConversations]
  rw [this, parseArray_print parseConversation printConversation
    parseConversation_print printConversation_head l []]

theorem deserialize_serialize_documents (l : List KnowledgeDocument) :
    deserializeDocuments (serializeDocuments l) = some l := by
  rw [deserializeDocuments]
  have : (serializeDocuments l).data = printArray printDocument l ++ [] := by
    simp [serializeDocuments]
  rw [this, parseArray_print parseDocument printDocument
    parseDocument_print printDocument_head l []]

/-! ### Behavioral lemmas about the handlers. -/
theorem string_append_empty (s : String) : s ++ "" = s := by
  apply String.ext
  simp [String.data_append]

theorem getLast?_append_pair {α : Type} (l : List α) (a b : α) :
    (l ++ [a, b]).getLast? = some b := by
  rw [show l ++ [a, b] = (l ++ [a]) ++ [b] by simp]
  exact List.getLast?_concat _

/-- Every stored document's full content occurs inside the joined knowledge text. -/
theorem joinDocs_contains (docs : List KnowledgeDocument) :
    ∀ d ∈ docs, ∃ p q, joinDocs docs = p ++ (d.content ++ q) := by
  induction docs with
  | nil => simp
  | cons a t ih =>
    intro d hd
    cases t with
    | nil =>
      simp only [List.mem_singleton] at hd
      subst hd
      refine ⟨"Document: " ++ d.name ++ "\n", "", ?_⟩
      rw [string_append_empty]
      rfl
    | cons b t' =>
      rcases List.mem_cons.mp hd with hda | hdt
      · subst hda
        refine ⟨"Document: " ++ d.name ++ "\n", "\n---\n" ++ joinDocs (b :: t'), ?_⟩
        have hstep : joinDocs (d :: b :: t') =
            "Document: " ++ d.name ++ "\n" ++ d.content ++ "\n---\n" ++ joinDocs (b :: t') := rfl
        rw [hstep]
        apply String.ext
        simp [String.data_append, List.append_assoc]
      · obtain ⟨p, q, hpq⟩ := ih d hdt
        refine ⟨"Document: " ++ a.name ++ "\n" ++ a.content ++ "\n---\n" ++ p, q, ?_⟩
        have hstep : joinDocs (a :: b :: t') =
            "Document: " ++ a.name ++ "\n" ++ a.content ++ "\n---\n" ++ joinDocs (b :: t') := rfl
        rw [hstep, hpq]
        apply String.ext
        simp [String.data_append, List.append_assoc]

theorem handleSendMessage_messages (s : AppState) (now : Nat)
    (outcome : Except Unit AgentResponse) (cid : String)
    (hcid : s.currentConversationId = some cid) (hinput : ¬jsTrim s.input = "")
    (hload : s.loading = false) :
    (handleSendMessage s now outcome).messages =
      s.messages ++
        [{ id := natToString now, content := s.input, role := .user,
           timestamp := formatTimestamp now },
         { id := natToString (now + 1),
           content := match outcome with
             | .ok data => extractAssistantContent data
             | .error _ => errorReplyText,
           role := .assistant, timestamp := formatTimestamp now }] := by
  simp only [handleSendMessage, hcid]
  rw [if_neg (by simp [hinput, hload])]
  simp [List.append_assoc]

theorem handleSendMessage_conversations (s : AppState) (now : Nat)
    (outcome : Except Unit AgentResponse) (cid : String)
    (hcid : s.currentConversationId = some cid) (hinput : ¬jsTrim s.input = "")
    (hload : s.loading = false) :
    (handleSendMessage s now outcome).conversations =
      (updateTitleIfFirst s.conversations cid s.input).map (fun conv =>
        if conv.id = cid then
          { conv with
            messages := s.messages ++
              [{ id := natToString now, content := s.input, role := .user,
                 timestamp := formatTimestamp now },
               { id := natToString (now + 1),
                 content := match outcome with
                   | .ok data => extractAssistantContent data
                   | .error _ => errorReplyText,
                 role := .assistant, timestamp := formatTimestamp now }] }
        else conv) := by
  simp only [handleSendMessage, hcid]
  rw [if_neg (by simp [hinput, hload])]
  simp [List.append_assoc]

theorem set_self_of_getElem? {α : Type} (l : List α) (i : Nat) (x : α)
    (h : l[i]? = some x) : l.set i x = l := by
  apply List.ext_getElem?
  intro j
  rw [List.getElem?_set]
  split
  · next hij =>
    subst hij
    have hi : i < l.length := by
      by_contra hge
      rw [List.getElem?_eq_none (by omega)] at h
      exact Option.noConfusion h
    rw [if_pos hi, h]
  · rfl

theorem updateTitleIfFirst_map_id (convs : List Conversation) (cid input : String) :
    (updateTitleIfFirst convs cid input).map Conversation.id =
      convs.map Conversation.id := by
  rw [updateTitleIfFirst]
  split
  · next h =>
    split
    · next h1 =>
      rw [List.map_set]
      apply set_self_of_getElem?
      rw [List.getElem?_map]
      rw [List.getElem?_eq_getElem h]
      rfl
    · rfl
  · rfl

theorem map_id_of_preserved (l : List Conversation) (g : Conversation → Conversation)
    (hg : ∀ c, (g c).id = c.id) :
    (l.map g).map Conversation.id = l.map Conversation.id := by
  rw [List.map_map]
  exact List.map_congr_left fun c _ => hg c

theorem handleSendMessage_map_id (s : AppState) (now : Nat)
    (outcome : Except Unit AgentResponse) :
    (handleSendMessage s now outcome).conversations.map Conversation.id =
      s.conversations.map Conversation.id := by
  cases hcid : s.currentConversationId with
  | none => simp only [handleSendMessage, hcid]
  | some cid =>
    by_cases hguard : jsTrim s.input = "" ∨ s.loading
    · simp only [handleSendMessage, hcid]
      rw [if_pos hguard]
    · simp only [handleSendMessage, hcid]
      rw [if_neg hguard]
      rw [map_id_of_preserved]
      · exact updateTitleIfFirst_map_id s.conversations cid s.input
      · intro c
        by_cases hc : c.id = cid <;> simp [hc]

theorem handleSendMessage_documents (s : AppState) (now : Nat)
    (outcome : Except Unit AgentResponse) :
    (handleSendMessage s now outcome).knowledgeDocuments = s.knowledgeDocuments := by
  cases hcid : s.currentConversationId with
  | none => simp only [handleSendMessage, hcid]
  | some cid =>
    by_cases hguard : jsTrim s.input = "" ∨ s.loading
    · simp only [handleSendMessage, hcid]
      rw [if_pos hguard]
    · simp only [handleSendMessage, hcid]
      rw [if_neg hguard]

theorem run_conversations_ids (ops : List Op) :
    ∀ s : AppState, ((ops.foldl step s).conversations).map Conversation.id =
      ((convCreateTimes ops).reverse.map natToString) ++
        s.conversations.map Conversation.id := by
  induction ops with
  | nil => intro s; simp [convCreateTimes]
  | cons op rest ih =>
    intro s
    rw [List.foldl_cons, ih]
    cases op with
    | createConv t =>
      simp [step, createNewConversation, newConversation, convCreateTimes, List.filterMap_cons]
    | addDoc t name content =>
      have : (step s (.addDoc t name content)).conversations = s.conversations := by
        simp only [step, handleAddDocument]
        split <;> rfl
      rw [this]
      simp [convCreateTimes, List.filterMap_cons]
    | deleteDoc id =>
      have : (step s (.deleteDoc id)).conversations = s.conversations := rfl
      rw [this]
      simp [convCreateTimes, List.filterMap_cons]
    | switchConv id =>
      have : (step s (.switchConv id)).conversations = s.conversations := by
        simp only [step, switchConversation]
        split <;> rfl
      rw [this]
      simp [convCreateTimes, List.filterMap_cons]
    | sendTurn t outcome =>
      rw [show step s (.sendTurn t outcome) = handleSendMessage s t outcome from rfl,
        handleSendMessage_map_id]
      simp [convCreateTimes, List.filterMap_cons]

theorem run_documents_ids (ops : List Op) :
    ∀ s : AppState,
      List.Sublist (((ops.foldl step s).knowledgeDocuments).map KnowledgeDocument.id)
        (((docAddTimes ops).reverse.map natToString) ++
          s.knowledgeDocuments.map KnowledgeDocument.id) := by
  induction ops with
  | nil => intro s; simp [docAddTimes]
  | cons op rest ih =>
    intro s
    rw [List.foldl_cons]
    cases op with
    | createConv t =>
      have hd : (step s (.createConv t)).knowledgeDocuments = s.knowledgeDocuments := rfl
      have := ih (step s (.createConv t))
      rw [hd] at this
      simpa [docAddTimes, List.filterMap_cons] using this
    | addDoc t name content =>
      by_cases hv : jsTrim name = "" ∨ jsTrim content = ""
      · have hd : (step s (.addDoc t name content)).knowledgeDocuments =
            s.knowledgeDocuments := by
          simp only [step, handleAddDocument]
          rw [if_pos hv]
        have hrest := ih (step s (.addDoc t name content))
        rw [hd] at hrest
        have hmono : List.Sublist
            (((docAddTimes rest).reverse.map natToString) ++
              s.knowledgeDocuments.map KnowledgeDocument.id)
            (((docAddTimes rest).reverse.map natToString) ++
              (natToString t :: s.knowledgeDocuments.map KnowledgeDocument.id)) :=
          List.Sublist.append_left (List.sublist_cons_self _ _) _
        have := hrest.trans hmono
        simpa [docAddTimes, List.filterMap_cons] using this
      · have hd : (step s (.addDoc t name content)).knowledgeDocuments.map
            KnowledgeDocument.id =
            natToString t :: s.knowledgeDocuments.map KnowledgeDocument.id := by
          simp only [step, handleAddDocument]
          rw [if_neg hv]
          simp
        have hrest := ih (step s (.addDoc t name content))
        rw [hd] at hrest
        simpa [docAddTimes, List.filterMap_cons] using hrest
    | deleteDoc id =>
      have hd : List.Sublist
          ((step s (.deleteDoc id)).knowledgeDocuments.map KnowledgeDocument.id)
          (s.knowledgeDocuments.map KnowledgeDocument.id) :=
        (List.filter_sublist _).map _
      have hrest := ih (step s (.deleteDoc id))
      have := hrest.trans (List.Sublist.append_left hd _)
      simpa [docAddTimes, List.filterMap_cons] using this
    | switchConv id =>
      have hd : (step s (.switchConv id)).knowledgeDocuments = s.knowledgeDocuments := by
        simp only [step, switchConversation]
        split <;> rfl
      have := ih (step s (.switchConv id))
      rw [hd] at this
      simpa [docAddTimes, List.filterMap_cons] using this
    | sendTurn t outcome =>
      have hd : (step s (.sendTurn t outcome)).knowledgeDocuments =
          s.knowledgeDocuments := handleSendMessage_documents s t outcome
      have := ih (step s (.sendTurn t outcome))
      rw [hd] at this
      simpa [docAddTimes, List.filterMap_cons] using this

theorem addDocument_of_invalid (docs : List KnowledgeDocument) (name content : String)
    (now : Nat) (h : jsTrim name = "" ∨ jsTrim content = "") :
    addDocument docs name content now = docs := by
  simp only [addDocument, handleAddDocument]
  rw [if_pos h]

theorem addDocument_of_valid (docs : List KnowledgeDocument) (name content : String)
    (now : Nat) (hn : ¬jsTrim name = "") (hc : ¬jsTrim content = "") :
    addDocument docs name content now =
      { id := natToString now, name := name, content := content,
        uploadedAt := natToString now, size := content.utf8ByteSize } :: docs := by
  simp only [addDocument, handleAddDocument]
  rw [if_neg (by simp [hn, hc])]

theorem runAddCalls_length (calls : List (String × String × Nat)) :
    ∀ docs, (runAddCalls docs calls).length =
      docs.length + calls.countP (fun c => validUpload c.1 c.2.1) := by
  induction calls with
  | nil => intro docs; simp [runAddCalls]
  | cons c rest ih =>
    obtain ⟨name, content, t⟩ := c
    intro docs
    rw [runAddCalls, ih]
    by_cases h : jsTrim name = "" ∨ jsTrim content = ""
    · rw [addDocument_of_invalid docs name content t h]
      have hv : validUpload name content = false := by
        rcases h with h | h <;> simp [validUpload, h]
      simp [List.countP_cons, hv]
    · push_neg at h
      rw [addDocument_of_valid docs name content t h.1 h.2]
      have hv : validUpload name content = true := by
        simp [validUpload, h.1, h.2]
      simp [List.countP_cons, hv]
      omega

theorem sendUpdate_title (cid : String) (newMsgs : List Message) (c : Conversation) :
    (if c.id = cid then { c with messages := newMsgs } else c).title = c.title := by
  split <;> rfl

theorem getD_title_map (l : List Conversation) (g : Conversation → Conversation)
    (hg : ∀ c, (g c).title = c.title) (i : Nat) (d : Conversation) (hi : i < l.length) :
    ((l.map g).getD i d).title = (l.getD i d).title := by
  rw [List.getD_eq_getElem?_getD, List.getElem?_map, List.getD_eq_getElem?_getD,
    List.getElem?_eq_getElem hi]
  simp [hg]

theorem getD_set_self {α : Type} (l : List α) (i : Nat) (a d : α) (hi : i < l.length) :
    (l.set i a).getD i d = a := by
  rw [List.getD_eq_getElem?_getD, List.getElem?_set_self hi]
  rfl

/-! ### The claims. -/
/-- C5: `addDocument` with a name or content that is empty or whitespace-only after
trimming leaves the document collection unchanged; each call with non-empty trimmed
name and content prepends exactly one new document whose `size` is the content's
byte length; over any sequence of calls the resulting list length equals the
starting length plus the number of valid calls (newest first, by prepending). -/
theorem addDocument_validation_and_prepend (docs : List KnowledgeDocument)
    (name content : String) (now : Nat) (calls : List (String × String × Nat)) :
    (jsTrim name = "" ∨ jsTrim content = "" → addDocument docs name content now = docs) ∧
    (¬jsTrim name = "" → ¬jsTrim content = "" →
      addDocument docs name content now =
        { id := natToString now, name := name, content := content,
          uploadedAt := natToString now, size := content.utf8ByteSize } :: docs) ∧
    (runAddCalls docs calls).length =
      docs.length + calls.countP (fun c => validUpload c.1 c.2.1) :=
  ⟨fun h => addDocument_of_invalid docs name content now h,
   fun hn hc => addDocument_of_valid docs name content now hn hc,
   runAddCalls_length calls docs⟩

/-- Witness for C5: a whitespace-only name is rejected; a valid call prepends one
document of byte size 11; a three-call sequence with one invalid call yields two
documents. -/
theorem addDocument_validation_and_prepend_witness :
    addDocument [] "   " "x" 3 = [] ∧
    addDocument [] "notes.txt" "hello world" 7 =
      [{ id := natToString 7, name := "notes.txt", content := "hello world",
         uploadedAt := natToString 7, size := 11 }] ∧
    (runAddCalls []
      [("notes.txt", "hello world", 1), ("", "y", 2), ("b.txt", "beta", 3)]).length = 2 := by
  refine ⟨(addDocument_validation_and_prepend [] "   " "x" 3 []).1 (Or.inl (by decide)),
    ?_, ?_⟩
  · rw [(addDocument_validation_and_prepend [] "notes.txt" "hello world" 7 []).2.1
      (by decide) (by decide)]
    decide
  · rw [(addDocument_validation_and_prepend [] "x" "x" 0
      [("notes.txt", "hello world", 1), ("", "y", 2), ("b.txt", "beta", 3)]).2.2]
    decide

/-- C6: `createConversation` always yields a conversation with exactly one seeded
assistant message, prepends it to the collection (leaving every other conversation
unchanged), makes it the active conversation, and clears the pending input. -/
theorem createConversation_seeds_single_assistant_message (s : AppState) (now : Nat) :
    (createNewConversation s now).conversations = newConversation now :: s.conversations ∧
    (newConversation now).messages.length = 1 ∧
    (∀ m ∈ (newConversation now).messages, m.role = Role.assistant) ∧
    (createNewConversation s now).currentConversationId = some (newConversation now).id ∧
    (createNewConversation s now).messages = (newConversation now).messages ∧
    (createNewConversation s now).input = "" := by
  refine ⟨rfl, rfl, ?_, rfl, rfl, rfl⟩
  intro m hm
  simp [newConversation] at hm
  subst hm
  rfl

/-- C8: serializing each collection to the Persistent Store's textual format and
deserializing the result reproduces a collection identical to the original (ids,
ordering, message/document content and timestamps preserved). -/
theorem persistent_store_roundtrip (convs : List Conversation)
    (docs : List KnowledgeDocument) :
    deserializeConversations (serializeConversations convs) = some convs ∧
    deserializeDocuments (serializeDocuments docs) = some docs :=
  ⟨deserialize_serialize_conversations convs, deserialize_serialize_documents docs⟩

/-- C10: `formatFileSize`'s unit list is exactly `Bytes/KB/MB`; for every byte
count of at least `1024^3` the computed unit index is out of bounds and the unit
part is the out-of-range lookup (`"undefined"`); below `1024^3` the unit part is
one of the three valid units. -/
theorem formatFileSize_unit_out_of_range_at_gigabyte (bytes : Nat) :
    fileSizeUnits = ["Bytes", "KB", "MB"] ∧
    (1024 ^ 3 ≤ bytes → (formatFileSize bytes).2 = "undefined") ∧
    (bytes < 1024 ^ 3 → (formatFileSize bytes).2 ∈ ["Bytes", "KB", "MB"]) := by
  refine ⟨rfl, ?_, ?_⟩
  · intro hbig
    have hne : bytes ≠ 0 := by positivity
    have hlog : 3 ≤ Nat.log 1024 bytes :=
      (Nat.pow_le_iff_le_log (by norm_num) hne).mp hbig
    rw [formatFileSize, if_neg hne]
    show fileSizeUnits.getD (fileSizeIndex bytes) "undefined" = "undefined"
    apply List.getD_eq_default
    simpa [fileSizeUnits, fileSizeIndex] using hlog
  · intro hsmall
    by_cases hz : bytes = 0
    · simp [formatFileSize, hz]
    · have hlog : Nat.log 1024 bytes < 3 :=
        (Nat.lt_pow_iff_log_lt (by norm_num) hz).mp hsmall
      rw [formatFileSize, if_neg hz]
      show fileSizeUnits.getD (fileSizeIndex bytes) "undefined" ∈ _
      rw [fileSizeIndex]
      interval_cases h : Nat.log 1024 bytes <;> decide

/-- Witness for C10: at exactly one gigabyte the unit part degenerates to
`"undefined"`; at 2048 bytes it is the valid unit `"KB"`. -/
theorem formatFileSize_unit_out_of_range_witness :
    (formatFileSize 1073741824).2 = "undefined" ∧ (formatFileSize 2048).2 ∈ ["Bytes", "KB", "MB"] :=
  ⟨(formatFileSize_unit_out_of_range_at_gigabyte 1073741824).2.1 (by norm_num),
   (formatFileSize_unit_out_of_range_at_gigabyte 2048).2.2 (by norm_num)⟩

/-- C2: when the success flag is set and the response field is present (truthy),
the displayed assistant text follows the ordered first-non-empty fallback chain
structured result → structured response → text → raw string body → top-level
raw_response → literal "No response generated"; and when the call throws, the
displayed (last appended) text is the fixed apology message. -/
theorem response_extraction_fallback_chain (data : AgentResponse) (s : AppState)
    (now : Nat) (cid : String) :
    (data.success = true → respTruthy data.response = true →
      extractAssistantContent data = specExtractedContent data) ∧
    (s.currentConversationId = some cid → ¬jsTrim s.input = "" → s.loading = false →
      ((handleSendMessage s now (.error ())).messages.getLast?).map Message.content =
        some errorReplyText) := by
  constructor
  · intro h1 h2
    cases hA : strTruthy (respResult data.response) <;>
    cases hB : strTruthy (respResponseField data.response) <;>
    cases hC : strTruthy (respText data.response) <;>
    cases hD : strTruthy (respAsString data.response) <;>
    cases hE : strTruthy data.raw_response <;>
      simp [extractAssistantContent, specExtractedContent, firstNonEmpty, jsOr,
        h1, h2, hA, hB, hC, hD, hE]
  · intro hcid hinput hload
    rw [handleSendMessage_messages s now (.error ()) cid hcid hinput hload,
      getLast?_append_pair]
    rfl

/-- Witness for C2: a structured response whose `response` field is "hi" extracts
per the chain; a thrown call surfaces the fixed apology as the last message. -/
theorem response_extraction_fallback_chain_witness :
    extractAssistantContent
      { success := true, response := some (.obj none (some "hi") none),
        raw_response := none } =
      specExtractedContent
        { success := true, response := some (.obj none (some "hi") none),
          raw_response := none } ∧
    ((handleSendMessage sampleState 9 (.error ())).messages.getLast?).map Message.content =
      some errorReplyText :=
  ⟨(response_extraction_fallback_chain
      { success := true, response := some (.obj none (some "hi") none),
        raw_response := none } sampleState 9 (natToString 5)).1 rfl rfl,
   (response_extraction_fallback_chain
      { success := true, response := none, raw_response := none }
      sampleState 9 (natToString 5)).2 rfl (by decide) rfl⟩

/-- C3: a failing send (thrown call) from an existing active conversation with
non-empty input grows the thread by exactly two entries — the user's message then
the fixed error message as an assistant message — and the conversation stored
under the active id carries exactly those messages, so the user's message is
never removed. -/
theorem failing_send_appends_user_and_error_message (s : AppState) (now : Nat)
    (cid : String) (hcid : s.currentConversationId = some cid)
    (hinput : ¬jsTrim s.input = "") (hload : s.loading = false) :
    (handleSendMessage s now (.error ())).messages =
      s.messages ++
        [{ id := natToString now, content := s.input, role := .user,
           timestamp := formatTimestamp now },
         { id := natToString (now + 1), content := errorReplyText, role := .assistant,
           timestamp := formatTimestamp now }] ∧
    (∀ conv ∈ (handleSendMessage s now (.error ())).conversations, conv.id = cid →
      conv.messages =
        s.messages ++
          [{ id := natToString now, content := s.input, role := .user,
             timestamp := formatTimestamp now },
           { id := natToString (now + 1), content := errorReplyText, role := .assistant,
             timestamp := formatTimestamp now }]) := by
  constructor
  · rw [handleSendMessage_messages s now (.error ()) cid hcid hinput hload]
  · intro conv hconv hid
    rw [handleSendMessage_conversations s now (.error ()) cid hcid hinput hload] at hconv
    obtain ⟨conv₀, h₀, rfl⟩ := List.mem_map.mp hconv
    by_cases hc : conv₀.id = cid
    · rw [if_pos hc]
    · rw [if_neg hc] at hid
      exact absurd hid hc

/-- Witness for C3 at a concrete seeded state and clock reading 9. -/
theorem failing_send_appends_user_and_error_message_witness :
    (handleSendMessage sampleState 9 (.error ())).messages =
      sampleState.messages ++
        [{ id := natToString 9, content := sampleState.input, role := .user,
           timestamp := formatTimestamp 9 },
         { id := natToString 10, content := errorReplyText, role := .assistant,
           timestamp := formatTimestamp 9 }] :=
  (failing_send_appends_user_and_error_message sampleState 9 (natToString 5)
    rfl (by decide) rfl).1

/-- C4: the outbound request's message equals the raw input followed (when the
document set is non-empty) by the fixed header literal and every document's name
and full content joined by the fixed delimiter line, so every stored document's
content occurs in the message; with no documents it is the raw input alone; the
user and session identifiers derive from the conversation id, and the agent id is
the fixed literal. -/
theorem request_assembly_includes_documents (s : AppState) (cid : String)
    (hcid : s.currentConversationId = some cid) (hinput : ¬jsTrim s.input = "")
    (hload : s.loading = false) :
    requestOf s = some (assembleRequest s.input s.knowledgeDocuments cid) ∧
    (assembleRequest s.input s.knowledgeDocuments cid).user_id = "user-chat-" ++ cid ∧
    (assembleRequest s.input s.knowledgeDocuments cid).session_id = "session-" ++ cid ∧
    (assembleRequest s.input s.knowledgeDocuments cid).agent_id =
      "693bfaa59188cfbc911c685e" ∧
    (s.knowledgeDocuments = [] →
      (assembleRequest s.input s.knowledgeDocuments cid).message = s.input) ∧
    (s.knowledgeDocuments ≠ [] →
      (assembleRequest s.input s.knowledgeDocuments cid).message =
        s.input ++ ("\n\nRelevant Knowledge Base:\n" ++ joinDocs s.knowledgeDocuments)) ∧
    (∀ d ∈ s.knowledgeDocuments, ∃ p q,
      (assembleRequest s.input s.knowledgeDocuments cid).message =
        p ++ (d.content ++ q)) := by
  refine ⟨?_, rfl, rfl, rfl, ?_, ?_, ?_⟩
  · simp only [requestOf, hcid]
    rw [if_neg (by simp [hinput, hload])]
  · intro h
    simp [assembleRequest, knowledgeContextOf, h, string_append_empty]
  · intro h
    have hlen : s.knowledgeDocuments.length > 0 := by
      cases hd : s.knowledgeDocuments with
      | nil => exact absurd hd h
      | cons a t => simp
    simp [assembleRequest, knowledgeContextOf, hlen]
  · intro d hd
    obtain ⟨p, q, hpq⟩ := joinDocs_contains s.knowledgeDocuments d hd
    have hlen : s.knowledgeDocuments.length > 0 := by
      cases hdoc : s.knowledgeDocuments with
      | nil => rw [hdoc] at hd; simp at hd
      | cons a t => simp
    refine ⟨(s.input ++ "\n\nRelevant Knowledge Base:\n") ++ p, q, ?_⟩
    simp only [assembleRequest, knowledgeContextOf, if_pos hlen, hpq]
    apply String.ext
    simp [String.data_append, List.append_assoc]

/-- Witness for C4: the request issued from a state with two stored documents. -/
theorem request_assembly_includes_documents_witness :
    requestOf sampleStateDocs =
      some (assembleRequest sampleStateDocs.input sampleStateDocs.knowledgeDocuments
        (natToString 5)) ∧
    (assembleRequest sampleStateDocs.input sampleStateDocs.knowledgeDocuments
      (natToString 5)).message =
      sampleStateDocs.input ++
        ("\n\nRelevant Knowledge Base:\n" ++ joinDocs sampleStateDocs.knowledgeDocuments) :=
  ⟨(request_assembly_includes_documents sampleStateDocs (natToString 5)
      rfl (by decide) rfl).1,
   (request_assembly_includes_documents sampleStateDocs (natToString 5)
      rfl (by decide) rfl).2.2.2.2.2.1 (by decide)⟩

/-- C7: a send into a conversation whose message list has exactly one message at
send time rewrites its title to the first 50 characters of the input; a send into
a conversation with more than one message leaves the title unchanged. -/
theorem title_rewritten_on_first_user_message (s : AppState) (now : Nat)
    (outcome : Except Unit AgentResponse) (cid : String)
    (hcid : s.currentConversationId = some cid) (hinput : ¬jsTrim s.input = "")
    (hload : s.loading = false) (i : Nat)
    (hfind : s.conversations.findIdx (fun c => c.id = cid) = i)
    (hi : i < s.conversations.length) :
    ((s.conversations.getD i emptyConversation).messages.length = 1 →
      ((handleSendMessage s now outcome).conversations.getD i emptyConversation).title =
        s.input.take 50) ∧
    ((s.conversations.getD i emptyConversation).messages.length ≠ 1 →
      ((handleSendMessage s now outcome).conversations.getD i emptyConversation).title =
        (s.conversations.getD i emptyConversation).title) := by
  have hgetD : s.conversations.getD i emptyConversation = s.conversations.get ⟨i, hi⟩ := by
    rw [List.getD_eq_getElem?_getD, List.getElem?_eq_getElem hi]
    rfl
  rw [handleSendMessage_conversations s now outcome cid hcid hinput hload]
  simp only [updateTitleIfFirst, hfind]
  rw [dif_pos hi]
  constructor
  · intro h1
    rw [hgetD] at h1
    rw [if_pos h1]
    rw [getD_title_map _ _ (fun c => sendUpdate_title cid _ c) i emptyConversation
      (by simpa using hi)]
    rw [getD_set_self _ _ _ _ hi]
  · intro h1
    rw [hgetD] at h1
    rw [if_neg h1]
    rw [getD_title_map _ _ (fun c => sendUpdate_title cid _ c) i emptyConversation hi]

/-- Witness for C7: sending from the freshly seeded conversation rewrites its
title to the input's first 50 characters. -/
theorem title_rewritten_on_first_user_message_witness :
    ((handleSendMessage sampleState 9
        (.ok { success := true, response := none, raw_response := none })).conversations.getD
      0 emptyConversation).title = sampleState.input.take 50 :=
  (title_rewritten_on_first_user_message sampleState 9
    (.ok { success := true, response := none, raw_response := none }) (natToString 5)
    rfl (by decide) rfl 0 (by decide) (by decide)).1 (by decide)

/-- C9 (amended): in every state reachable from a fresh session by any sequence
of operations, conversation ids and document ids are pairwise distinct within
their collections, provided the conversation-creation timestamps are pairwise
distinct and the document-upload timestamps are pairwise distinct (ids are the
decimal rendering of the `Date.now()` reading, which is injective on distinct
readings). -/
theorem ids_nodup_of_distinct_creation_times (ops : List Op)
    (hc : (convCreateTimes ops).Nodup) (hd : (docAddTimes ops).Nodup) :
    ((run ops).conversations.map Conversation.id).Nodup ∧
    ((run ops).knowledgeDocuments.map KnowledgeDocument.id).Nodup := by
  constructor
  · rw [run, run_conversations_ids ops initState]
    have hinit : initState.conversations.map Conversation.id = [] := rfl
    rw [hinit, List.append_nil]
    exact (List.nodup_reverse.mpr hc).map natToString_injective
  · have hsub := run_documents_ids ops initState
    have hinit : initState.knowledgeDocuments.map KnowledgeDocument.id = [] := rfl
    rw [hinit, List.append_nil] at hsub
    rw [run]
    exact hsub.nodup ((List.nodup_reverse.mpr hd).map natToString_injective)

/-- Witness for the amended C9: a run with three distinct timestamps has
pairwise-distinct conversation and document ids. -/
theorem ids_nodup_of_distinct_creation_times_witness :
    ((run [Op.createConv 5, Op.addDoc 6 "notes.txt" "hello world",
        Op.createConv 7]).conversations.map Conversation.id).Nodup ∧
    ((run [Op.createConv 5, Op.addDoc 6 "notes.txt" "hello world",
        Op.createConv 7]).knowledgeDocuments.map KnowledgeDocument.id).Nodup :=
  ids_nodup_of_distinct_creation_times
    [Op.createConv 5, Op.addDoc 6 "notes.txt" "hello world", Op.createConv 7]
    (by decide) (by decide)

/-- Counterexample for C9 as stated: two conversation creations at the same
`Date.now()` reading produce the same id string, so ids are not pairwise
distinct when two creations occur at the same timestamp. -/
theorem same_timestamp_creations_collide :
    ¬ (((run [Op.createConv 5, Op.createConv 5]).conversations.map
        Conversation.id).Nodup) := by
  decide

/-- C1: evaluation at the failing input.  Deleting the only stored document
empties the collection, but the save effect — which only writes a non-empty
collection — leaves the store holding the previous one-document serialization
rather than the serialization of the now-empty collection. -/
theorem deleting_last_document_leaves_store_stale :
    (deleteDocument { initState with knowledgeDocuments := [docA] }
      docA.id).knowledgeDocuments = [] ∧
    (saveEffects (deleteDocument { initState with knowledgeDocuments := [docA] } docA.id)
        (saveEffects { initState with knowledgeDocuments := [docA] }
          emptyStore)).knowledgeDocuments =
      some (serializeDocuments [docA]) ∧
    (saveEffects (deleteDocument { initState with knowledgeDocuments := [docA] } docA.id)
        (saveEffects { initState with knowledgeDocuments := [docA] }
          emptyStore)).knowledgeDocuments ≠
      some (serializeDocuments []) := by
  refine ⟨by decide, by decide, by decide⟩

end ChatApp
